import Mathlib

/-!
Shallow embedding of the CovenantSQL MQTT synchronization broker
(`worker/broker.go`) and proofs about its topic decoding, payload
serialization, event dispatch, write handling, replay handling,
periodic publishing and outbound publish logic.

Modelling conventions:
* Go strings are Lean `String`s; `proto.NodeID` and `proto.DatabaseID`
  are string aliases in Go and stay string aliases here.
* `int32` / `int` / `uint64` become `Int` / `Int` / `Nat`; the claims
  under study use values far from the 32/64-bit bounds, so wraparound
  is not modelled.
* Side effects are made explicit: handlers return the ordered trace of
  the observable calls they perform (chain-append submissions and
  transport publish calls); log statements have no observable effect
  and are dropped.
* The MQTT transport is a parameter: each publish call is answered by a
  `Token` describing what `token.Wait()` returns and what
  `token.Error()` holds, exactly the two observations `broker.go` makes.
-/

namespace Broker

/-- Go `proto.NodeID`: a string node identifier. -/
abbrev NodeID := String

/-- Go `proto.DatabaseID`: a string database identifier. -/
abbrev DatabaseID := String

/-- Go `type MQTTAPI string`. -/
abbrev MQTTAPI := String

/-- Publish API constant `MQTTNewest MQTTAPI = "newest"`. -/
def MQTTNewest : MQTTAPI := "newest"

/-- Publish API constant `DSNList MQTTAPI = "dsnlist"`. -/
def DSNList : MQTTAPI := "dsnlist"

/-- Subscribe API constant `MQTTWrite MQTTAPI = "write"`. -/
def MQTTWrite : MQTTAPI := "write"

/-- Subscribe API constant `MQTTReplay MQTTAPI = "replay"`. -/
def MQTTReplay : MQTTAPI := "replay"

/-- Subscribe API constant `MQTTCreate MQTTAPI = "create"`. -/
def MQTTCreate : MQTTAPI := "create"

/-- Subscribe API constant `MQTTInvalid MQTTAPI = ""`. -/
def MQTTInvalid : MQTTAPI := ""

/-- Go package variable `publishPrefix = "/cql/miner/"`. -/
def publishPre : String := "/cql/miner/"

/-- Go package variable `listenPrefix = "/cql/client/"`. -/
def listenPre : String := "/cql/client/"

/-- Modelled from the spec: one statement of a chain transaction.
`types.Query` is defined outside the provided sources; the spec
describes the `events` field as an "ordered list of statements" with a
human-readable structured serialization, so a query is modelled as a
statement string. -/
structure Query where
  statement : String
deriving DecidableEq

/-- Go struct `BrokerPayload`: the wire-level envelope for inbound and
outbound broker messages (`block_id`, `block_index`, `client_id`,
`client_seq`, `events`, plus the replay range fields). -/
structure BrokerPayload where
  BlockID : Int
  BlockIndex : Int
  ClientID : NodeID
  ClientSequence : Nat
  Events : List Query
  BlockStart : Int
  IndexStart : Int
  BlockEnd : Int
  IndexEnd : Int
deriving DecidableEq

/-- Go struct `SubscribeEvent`: one decoded inbound message. -/
structure SubscribeEvent where
  ClientID : NodeID
  DatabaseID : DatabaseID
  ApiName : MQTTAPI
  Payload : BrokerPayload
deriving DecidableEq

/-! ### Topic decoding (`decodeTopicAPI`) -/

/-- Go `strings.Split(s, "/")` on a character list: splits at every
`'/'`; the empty string yields one empty segment, as in Go. -/
def splitSlash : List Char → List (List Char)
  | [] => [[]]
  | c :: rest =>
    let r := splitSlash rest
    if c = '/' then [] :: r
    else
      match r with
      | h :: t => (c :: h) :: t
      | [] => [[c]]

/-- Go `strings.TrimPrefix(s, pre)`: drops the leading `pre` when
present, otherwise returns `s` unchanged. -/
def dropPre (pre s : List Char) : List Char :=
  if pre.isPrefixOf s then s.drop pre.length else s

/-- The segment list `strings.Split(strings.TrimPrefix(topic, listenPrefix), "/")`
computed by `decodeTopicAPI`. -/
def splitArgs (topic : String) : List String :=
  (splitSlash (dropPre listenPre.toList topic.toList)).map (fun l => String.mk l)

/-- Go `decodeTopicAPI(topic)`: parses a listen topic into
`(clientID, databaseID, apiName)`. Mirrors the Go control flow: early
return of zero values for 0 or more than 3 segments, a `switch` on the
segment count, then the validity check that maps any api name other
than write/replay/create to `MQTTInvalid`. -/
def decodeTopicAPI (topic : String) : NodeID × DatabaseID × MQTTAPI :=
  let args := splitArgs topic
  if args.length = 0 ∨ args.length > 3 then ("", "", MQTTInvalid)
  else
    let r : NodeID × DatabaseID × MQTTAPI :=
      match args with
      | [a0] => (a0, "", MQTTInvalid)
      | [a0, a1] =>
        if a1 = MQTTCreate then (a0, "", MQTTCreate) else (a0, a1, MQTTInvalid)
      | [a0, a1, a2] => (a0, a1, a2)
      | _ => ("", "", MQTTInvalid)
    if r.2.2 ≠ MQTTWrite ∧ r.2.2 ≠ MQTTReplay ∧ r.2.2 ≠ MQTTCreate then
      (r.1, r.2.1, MQTTInvalid)
    else r

/-! ### Wire payload serialization (`encoding/json` over `BrokerPayload`) -/

/-- Structured JSON values: the wire payload format ("human-readable
structured serialization, not a binary codec"). -/
inductive Json where
  | str (s : String)
  | num (n : Int)
  | arr (xs : List Json)
  | obj (fields : List (String × Json))

/-- Modelled from the spec: the wire form of one statement
(`types.Query` is outside the provided sources). -/
def Query.toJson (q : Query) : Json := .str q.statement

/-- Modelled from the spec: decoding one statement from the wire. -/
def Query.fromJson : Json → Option Query
  | .str s => some ⟨s⟩
  | _ => none

/-- Field lookup in a JSON object, as `encoding/json` matches struct
tags against object keys. -/
def jsonLookup : List (String × Json) → String → Option Json
  | [], _ => none
  | (k, v) :: rest, key => if k = key then some v else jsonLookup rest key

/-- Decode an optional JSON field into an `Int`-valued Go field; a
missing field keeps the zero value, a non-number is a decode error. -/
def jsonToInt : Option Json → Option Int
  | none => some 0
  | some (.num n) => some n
  | some _ => none

/-- Decode an optional JSON field into a `uint64`-valued Go field; a
negative number or a non-number is a decode error. -/
def jsonToNat : Option Json → Option Nat
  | none => some 0
  | some (.num n) => if n < 0 then none else some n.toNat
  | some _ => none

/-- Decode an optional JSON field into a string-valued Go field. -/
def jsonToStr : Option Json → Option String
  | none => some ""
  | some (.str s) => some s
  | some _ => none

/-- Decode a JSON array elementwise into statements; any element
failing to decode fails the whole list, as array unmarshaling does. -/
def decodeQueryList : List Json → Option (List Query)
  | [] => some []
  | x :: rest =>
    match Query.fromJson x, decodeQueryList rest with
    | some q, some qs => some (q :: qs)
    | _, _ => none

/-- Decode an optional JSON field into the `events` statement list. -/
def jsonToQueries : Option Json → Option (List Query)
  | none => some []
  | some (.arr xs) => decodeQueryList xs
  | some _ => none

/-- Go `json.Marshal` of a `BrokerPayload`: an object holding the
tagged fields in declaration order. -/
def marshalBrokerPayload (p : BrokerPayload) : Json :=
  .obj [
    ("block_id", .num p.BlockID),
    ("block_index", .num p.BlockIndex),
    ("client_id", .str p.ClientID),
    ("client_seq", .num (p.ClientSequence : Int)),
    ("events", .arr (p.Events.map Query.toJson)),
    ("block_start", .num p.BlockStart),
    ("index_start", .num p.IndexStart),
    ("block_end", .num p.BlockEnd),
    ("index_end", .num p.IndexEnd)]

/-- Go `json.Unmarshal` of a wire value into a `BrokerPayload`: the
input must be an object; each tagged field is read when present and
left at its zero value when absent. -/
def unmarshalBrokerPayload : Json → Option BrokerPayload
  | .obj fields => do
    let bid ← jsonToInt (jsonLookup fields "block_id")
    let bidx ← jsonToInt (jsonLookup fields "block_index")
    let cid ← jsonToStr (jsonLookup fields "client_id")
    let cseq ← jsonToNat (jsonLookup fields "client_seq")
    let evs ← jsonToQueries (jsonLookup fields "events")
    let bs ← jsonToInt (jsonLookup fields "block_start")
    let is ← jsonToInt (jsonLookup fields "index_start")
    let be ← jsonToInt (jsonLookup fields "block_end")
    let ie ← jsonToInt (jsonLookup fields "index_end")
    some ⟨bid, bidx, cid, cseq, evs, bs, is, be, ie⟩
  | _ => none

/-! ### Chain collaborator model (`types.Request`, blocks, registry) -/

/-- Query kinds of `types.RequestHeader.QueryType`; the broker only
ever builds `WriteQuery`. -/
inductive QueryType where
  | ReadQuery
  | WriteQuery
deriving DecidableEq

/-- The `types.RequestHeader` fields set by `processWriteEvent`
(`QueryType`, `NodeID`, `DatabaseID`, `ConnectionID`, `SeqNo`,
`Timestamp`); the signature wrapper adds nothing the broker reads. -/
structure RequestHeader where
  QueryType : QueryType
  NodeID : NodeID
  DatabaseID : DatabaseID
  ConnectionID : Nat
  SeqNo : Nat
  Timestamp : Int
deriving DecidableEq

/-- Go `types.RequestPayload`: the ordered statement list. -/
structure RequestPayload where
  Queries : List Query
deriving DecidableEq

/-- Go `types.Request`: a chain-append request. -/
structure Request where
  Header : RequestHeader
  Payload : RequestPayload
deriving DecidableEq

/-- One committed transaction of a block (`block.QueryTxs` element);
the broker reads its request header and statement payload. -/
structure QueryAsTx where
  Request : Request
deriving DecidableEq

/-- A committed block: an ordered transaction list. -/
structure Block where
  QueryTxs : List QueryAsTx
deriving DecidableEq

/-- The chain reader collaborator: `FetchBlockByCount(count)` returns
`(block, realCount, hasMore)` or an error; `count = -1` asks for the
most recent block. -/
structure Chain where
  FetchBlockByCount : Int → Except String (Block × Int × Bool)

/-- A registered database: its identifier, chain handle, and the query
executor collaborator `db.Query` (only the error result is observed by
the broker). -/
structure Database where
  dbID : DatabaseID
  chain : Chain
  QueryExec : Request → Option String

/-- The database registry (`dbms`): the registered databases in their
iteration order. -/
structure DBMS where
  dbMap : List Database

/-- Registry lookup used by `processReplayEvent` (`dbms.dbMap.Load`). -/
def DBMS.load (d : DBMS) (id : DatabaseID) : Option Database :=
  d.dbMap.find? (fun db => db.dbID = id)

/-- Registry lookup used by `processWriteEvent` (`dbms.getMeta`). -/
def DBMS.getMeta (d : DBMS) (id : DatabaseID) : Option Database :=
  d.dbMap.find? (fun db => db.dbID = id)

/-! ### The transport and the publisher (`PublishDSN`) -/

/-- The two observations `broker.go` makes of an MQTT token: what
`token.Wait()` returns and what `token.Error()` holds afterwards. Per
the transport library (and the connect check in `NewMQTTClient`, which
tests `token.Wait() && token.Error() != nil`), a completed operation
has `waitOk = true`, and a completed-but-failed operation additionally
has a non-nil `tokenErr`. -/
structure Token where
  waitOk : Bool
  tokenErr : Option String

/-- One outbound transport publish call with its arguments
(`c.Publish(topic, 1, true, jsonBytes)`). -/
structure PublishCall where
  topic : String
  qos : Nat
  retained : Bool
  payload : Json

/-- The broker client state the handlers read: the outbound topic
prefix (Go field `PublishTopicPrefix`, built in `NewMQTTClient` as
`publishPrefix + config.User + "/"`), the transport (mapping each
publish call to its token outcome), and the database registry. -/
structure MQTTClient where
  PublishTopicPre : String
  transport : PublishCall → Token
  dbms : DBMS

/-- Go `PublishDSN(apiName, databaseID, payload, requestClient)`:
serializes the payload, builds the outbound topic (`newest` and
`replay` only; any other api name is an error with no transport call),
performs the publish, and returns `token.Error()` only when
`token.Wait()` returned false. The result pairs the returned error
with the trace of transport publish calls performed. -/
def PublishDSN (c : MQTTClient) (apiName : MQTTAPI) (databaseID : DatabaseID)
    (payload : BrokerPayload) (requestClient : NodeID) :
    Option String × List PublishCall :=
  let jsonBytes := marshalBrokerPayload payload
  if apiName = MQTTNewest then
    let topic := c.PublishTopicPre ++ databaseID ++ "/" ++ apiName
    let call : PublishCall := ⟨topic, 1, true, jsonBytes⟩
    let token := c.transport call
    ((if ¬ token.waitOk then token.tokenErr else none), [call])
  else if apiName = MQTTReplay then
    let topic := c.PublishTopicPre ++ databaseID ++ "/" ++ apiName ++ "/" ++ requestClient
    let call : PublishCall := ⟨topic, 1, true, jsonBytes⟩
    let token := c.transport call
    ((if ¬ token.waitOk then token.tokenErr else none), [call])
  else
    (some ("Invalid miner push api name" ++ apiName), [])

/-! ### Subscription callback and dispatch -/

/-- Go `subscribeCallback`: decodes the topic, drops the message when
the api name decoded to `MQTTInvalid` (`apiName == ""`) or when the
payload fails to unmarshal (both only logged), and otherwise yields
the `SubscribeEvent` pushed onto the ingest queue. -/
def subscribeCallback (topic : String) (msg : Json) : Option SubscribeEvent :=
  let r := decodeTopicAPI topic
  if r.2.2 = "" then none
  else
    match unmarshalBrokerPayload msg with
    | none => none
    | some payload => some ⟨r.1, r.2.1, r.2.2, payload⟩

/-- The `BrokerPayload` literal built for each committed transaction in
`processReplayEvent` and `updateBlockLoop` (identical in both): block
id and index from the chain position, client id / sequence / statements
from the transaction's request; the replay range fields keep their zero
values. -/
def mkTxPayload (realCount : Int) (index : Nat) (qat : QueryAsTx) : BrokerPayload :=
  { BlockID := realCount
    BlockIndex := (index : Int)
    ClientID := qat.Request.Header.NodeID
    ClientSequence := qat.Request.Header.SeqNo
    Events := qat.Request.Payload.Queries
    BlockStart := 0
    IndexStart := 0
    BlockEnd := 0
    IndexEnd := 0 }

/-! ### Write handler (`processWriteEvent`) -/

/-- Go `processWriteEvent`: resolves the database (unknown database is
logged and dropped), builds the single chain-append request — query
kind write, requesting node = event client, target database, connection
id 0, sequence number = event client sequence, timestamp = current
local time (`now`) — and submits it via `db.Query`; a collaborator
error is logged and the event dropped. The result is the ordered trace
of chain-append submissions. -/
def processWriteEvent (c : MQTTClient) (now : Int) (event : SubscribeEvent) :
    List Request :=
  match c.dbms.getMeta event.DatabaseID with
  | none => []
  | some db =>
    let req : Request :=
      { Header :=
          { QueryType := .WriteQuery
            NodeID := event.ClientID
            DatabaseID := event.DatabaseID
            ConnectionID := 0
            SeqNo := event.Payload.ClientSequence
            Timestamp := now }
        Payload := { Queries := event.Payload.Events } }
    match db.QueryExec req with
    | some _ => [req]
    | none => [req]

/-! ### Replay handler (`processReplayEvent`) -/

/-- The inner transaction loop of `processReplayEvent` over
`block.QueryTxs`, starting at position `index`. Returns the publish
trace and a flag meaning "the whole replay returned early" (either the
end-of-range early return on the last block or a publish error). In
the first iterated block (`blockIndex = bStart`), transactions before
`iStart` are skipped; otherwise, in the last block (`blockIndex = bEnd`),
a transaction past `iEnd` ends the whole replay. -/
def replayTxsLoop (c : MQTTClient) (realCount blockIndex bStart bEnd iStart iEnd : Int) :
    Nat → List QueryAsTx → List PublishCall × Bool
  | _, [] => ([], false)
  | index, qat :: rest =>
    let payload := mkTxPayload realCount index qat
    let doPub : List PublishCall × Bool :=
      match PublishDSN c MQTTReplay qat.Request.Header.DatabaseID payload payload.ClientID with
      | (some _, calls) => (calls, true)
      | (none, calls) =>
        let r := replayTxsLoop c realCount blockIndex bStart bEnd iStart iEnd (index + 1) rest
        (calls ++ r.1, r.2)
    if blockIndex = bStart then
      if (index : Int) < iStart then
        replayTxsLoop c realCount blockIndex bStart bEnd iStart iEnd (index + 1) rest
      else doPub
    else if blockIndex = bEnd then
      if (index : Int) > iEnd then ([], true)
      else doPub
    else doPub

/-- The outer block loop of `processReplayEvent`:
`for blockIndex := bStart; blockIndex <= bEnd; blockIndex++`, driven by
the remaining iteration count as fuel. Each iteration fetches
`db.chain.FetchBlockByCount(-1)` — always the most recent block — and
runs the transaction loop; a fetch error or an early return ends the
replay. -/
def replayBlocksLoop (c : MQTTClient) (db : Database) (bStart bEnd iStart iEnd : Int) :
    Nat → Int → List PublishCall
  | 0, _ => []
  | fuel + 1, blockIndex =>
    match db.chain.FetchBlockByCount (-1) with
    | .error _ => []
    | .ok (block, realCount, _) =>
      let r := replayTxsLoop c realCount blockIndex bStart bEnd iStart iEnd 0 block.QueryTxs
      if r.2 then r.1
      else r.1 ++ replayBlocksLoop c db bStart bEnd iStart iEnd fuel (blockIndex + 1)

/-- Go `processReplayEvent`: resolves the database from the event
(unknown database is logged, nothing published), reads the replay
range from the payload and runs the block loop over
`bStart..bEnd`. The result is the ordered trace of transport publish
calls. -/
def processReplayEvent (c : MQTTClient) (event : SubscribeEvent) : List PublishCall :=
  match c.dbms.load event.DatabaseID with
  | none => []
  | some db =>
    let bStart := event.Payload.BlockStart
    let bEnd := event.Payload.BlockEnd
    let iStart := event.Payload.IndexStart
    let iEnd := event.Payload.IndexEnd
    replayBlocksLoop c db bStart bEnd iStart iEnd (bEnd - bStart + 1).toNat bStart

/-- Go `processCreateEvent`: a stub that only logs "Create API does not
support yet" — no chain call, no publish, no state change. -/
def processCreateEvent (_c : MQTTClient) (_event : SubscribeEvent) :
    List Request × List PublishCall :=
  ([], [])

/-- The dispatch switch of `subscribeEventLoop`: routes one dequeued
event by its api name to the write, replay or create handler; an
unknown api name is logged and dropped. The result pairs the trace of
chain-append submissions with the trace of transport publish calls. -/
def dispatchEvent (c : MQTTClient) (now : Int) (e : SubscribeEvent) :
    List Request × List PublishCall :=
  if e.ApiName = MQTTWrite then (processWriteEvent c now e, [])
  else if e.ApiName = MQTTReplay then ([], processReplayEvent c e)
  else if e.ApiName = MQTTCreate then processCreateEvent c e
  else ([], [])

/-- Go `subscribeEventLoop`: drains the ingest queue in order,
dispatching each event; no handler outcome stops the loop. -/
def subscribeEventLoop (c : MQTTClient) (now : Int) :
    List SubscribeEvent → List Request × List PublishCall
  | [] => ([], [])
  | e :: rest =>
    let r := dispatchEvent c now e
    let r' := subscribeEventLoop c now rest
    (r.1 ++ r'.1, r.2 ++ r'.2)

/-! ### Periodic publisher (`updateBlockLoop`, one tick) -/

/-- The inner transaction loop of one `updateBlockLoop` tick for one
database: publishes a `newest` payload for every transaction of the
fetched block, overwriting the single `err` variable each iteration
(a failed publish is only logged and does not break the loop). Returns
the publish trace and the final value of `err` — the result of the
last publish, or the incoming `errAcc` (nil before the loop) for an
empty block. -/
def newestTxsLoop (c : MQTTClient) (realCount : Int) :
    Nat → Option String → List QueryAsTx → List PublishCall × Option String
  | _, errAcc, [] => ([], errAcc)
  | index, _, qat :: rest =>
    let payload := mkTxPayload realCount index qat
    let r := PublishDSN c MQTTNewest qat.Request.Header.DatabaseID payload payload.ClientID
    let r' := newestTxsLoop c realCount (index + 1) r.1 rest
    (r.2 ++ r'.1, r'.2)

/-- The per-database body of the `dbms.dbMap.Range` callback in
`updateBlockLoop`: fetch the most recent block (a fetch error returns
false, halting the registry iteration), publish every transaction, and
continue iff the final `err` is nil. Returns the publish trace and the
callback's continue flag. -/
def updateBlockDB (c : MQTTClient) (db : Database) : List PublishCall × Bool :=
  match db.chain.FetchBlockByCount (-1) with
  | .error _ => ([], false)
  | .ok (block, realCount, _) =>
    let r := newestTxsLoop c realCount 0 none block.QueryTxs
    (r.1, r.2.isNone)

/-- `dbms.dbMap.Range`: visits the registered databases in order until
a callback returns false. -/
def rangeDBs (c : MQTTClient) : List Database → List PublishCall
  | [] => []
  | db :: rest =>
    let r := updateBlockDB c db
    if r.2 then r.1 ++ rangeDBs c rest else r.1

/-- One timer tick of `updateBlockLoop`: range over the whole registry. -/
def updateBlockTick (c : MQTTClient) : List PublishCall :=
  rangeDBs c c.dbms.dbMap

/-! ### Derived call shapes

The exact transport publish call `PublishDSN` performs for the replay
and newest paths, expressed as functions of the transaction; used to
state what the handlers publish. -/

/-- The transport publish call made when replaying the transaction at
`index` of the block resolved to `realCount`: topic
`PublishTopicPrefix + databaseID + "/replay/" + requestClient`, QoS 1,
retained, with the serialized per-transaction payload. -/
def replayCall (c : MQTTClient) (realCount : Int) (index : Nat) (qat : QueryAsTx) :
    PublishCall :=
  ⟨c.PublishTopicPre ++ qat.Request.Header.DatabaseID ++ "/" ++ MQTTReplay ++ "/" ++
      qat.Request.Header.NodeID,
    1, true, marshalBrokerPayload (mkTxPayload realCount index qat)⟩

/-- The error `PublishDSN` reports for the `newest` publish of the
transaction at `index` of the block resolved to `realCount`. -/
def newestPublishErr (c : MQTTClient) (realCount : Int) (index : Nat) (qat : QueryAsTx) :
    Option String :=
  (PublishDSN c MQTTNewest qat.Request.Header.DatabaseID (mkTxPayload realCount index qat)
      (mkTxPayload realCount index qat).ClientID).1

/-- The chain-append request `processWriteEvent` builds for a write
event at local time `now`. -/
def writeReq (now : Int) (event : SubscribeEvent) : Request :=
  { Header :=
      { QueryType := .WriteQuery
        NodeID := event.ClientID
        DatabaseID := event.DatabaseID
        ConnectionID := 0
        SeqNo := event.Payload.ClientSequence
        Timestamp := now }
    Payload := { Queries := event.Payload.Events } }

/-! ### Concrete fixtures

Small concrete chains, clients and events used to evaluate the
embedded code on the scenarios named by the specification. -/

/-- A committed transaction with the given requesting node, sequence
number, target database and single statement. -/
def tx (node : NodeID) (seq : Nat) (dbid : DatabaseID) (stmt : String) : QueryAsTx :=
  ⟨⟨⟨.WriteQuery, node, dbid, 0, seq, 0⟩, ⟨[⟨stmt⟩]⟩⟩⟩

/-- Block 0 of the synthetic replay chain: transaction indices 0, 1, 2. -/
def block0 : Block :=
  ⟨[tx "cli" 10 "db1" "a0", tx "cli" 11 "db1" "a1", tx "cli" 12 "db1" "a2"]⟩

/-- Block 1 of the synthetic replay chain: transaction indices 0, 1. -/
def block1 : Block :=
  ⟨[tx "cli" 20 "db1" "b0", tx "cli" 21 "db1" "b1"]⟩

/-- The synthetic two-block chain: block 0 holds three transactions,
block 1 two; any other position (in particular `-1`, the most recent)
resolves to block 1 with `realCount = 1`. -/
def twoBlockChain : Chain :=
  ⟨fun count =>
    if count = 0 then .ok (block0, 0, true)
    else .ok (block1, 1, false)⟩

/-- The registered database `db1` backed by the two-block chain, with a
query executor that always succeeds. -/
def db1 : Database := ⟨"db1", twoBlockChain, fun _ => none⟩

/-- A broker client for node `N` over a transport whose every publish
completes successfully. -/
def okClient : MQTTClient :=
  ⟨publishPre ++ "N" ++ "/", fun _ => ⟨true, none⟩, ⟨[db1]⟩⟩

/-- The replay request payload of the specification's replay-range
scenario: `(blockStart = 0, indexStart = 1)` to
`(blockEnd = 1, indexEnd = 0)`. -/
def replayRangePayload : BrokerPayload := ⟨0, 0, "", 0, [], 0, 1, 1, 0⟩

/-- The replay event of the replay-range scenario, addressed to `db1`. -/
def replayRangeEvent : SubscribeEvent := ⟨"cli", "db1", MQTTReplay, replayRangePayload⟩

/-- A broker client whose transport completes every publish but
reports an acknowledgement failure on each (`Wait()` returns true,
`Error()` is non-nil), as a failed-but-completed token does. -/
def ackFailClient : MQTTClient :=
  ⟨publishPre ++ "N" ++ "/", fun _ => ⟨true, some "ack failed"⟩, ⟨[]⟩⟩

/-- First transaction of database `dbA`'s block; its request header
targets database `X0`, so its newest topic is `/cql/miner/N/X0/newest`. -/
def txA0 : QueryAsTx := tx "n0" 1 "X0" "s0"

/-- Second transaction of `dbA`'s block, targeting database `X1`. -/
def txA1 : QueryAsTx := tx "n1" 2 "X1" "s1"

/-- The single transaction of database `dbB`'s block, targeting `Y`. -/
def txB0 : QueryAsTx := tx "n2" 3 "Y" "s2"

/-- Registry entry `dbA`: its most recent block holds `txA0, txA1`
at `realCount = 5`. -/
def dbA : Database := ⟨"dbA", ⟨fun _ => .ok (⟨[txA0, txA1]⟩, 5, false)⟩, fun _ => none⟩

/-- Registry entry `dbB`: its most recent block holds `txB0`
at `realCount = 7`. -/
def dbB : Database := ⟨"dbB", ⟨fun _ => .ok (⟨[txB0]⟩, 7, false)⟩, fun _ => none⟩

/-- A broker client over registry `[dbA, dbB]` whose transport fails
(without completing) exactly the publish addressed to
`/cql/miner/N/X0/newest` — the first transaction of `dbA`'s block —
and completes every other publish successfully. -/
def failFirstClient : MQTTClient :=
  ⟨publishPre ++ "N" ++ "/",
    fun call =>
      if call.topic = publishPre ++ "N" ++ "/" ++ "X0" ++ "/" ++ MQTTNewest then
        ⟨false, some "boom"⟩
      else ⟨true, none⟩,
    ⟨[dbA, dbB]⟩⟩

/-- A broker client whose registered `db1` has a query executor that
always fails with "execfail". -/
def execFailClient : MQTTClient :=
  ⟨publishPre ++ "N" ++ "/", fun _ => ⟨true, none⟩,
    ⟨[⟨"db1", twoBlockChain, fun _ => some "execfail"⟩]⟩⟩

/-- A write event for `db1` with client sequence 42 and one statement. -/
def writeEvent : SubscribeEvent :=
  ⟨"cli", "db1", MQTTWrite, ⟨0, 0, "cli", 42, [⟨"INSERT"⟩], 0, 0, 0, 0⟩⟩

/-- A single-block replay request: `blockStart = blockEnd = 0`,
`indexStart = 1`, `indexEnd = 0` — `indexEnd` lies below indices the
block still contains. -/
def singleBlockReplayEvent : SubscribeEvent :=
  ⟨"cli", "db1", MQTTReplay, ⟨0, 0, "", 0, [], 0, 1, 0, 0⟩⟩


/-! ### Helper lemmas -/

/-- Statement lists round-trip through the wire format. -/
theorem queries_roundtrip (qs : List Query) :
    decodeQueryList (qs.map Query.toJson) = some qs := by
  induction qs with
  | nil => rfl
  | cons q rest ih => simp [decodeQueryList, Query.toJson, Query.fromJson, ih]

/-- Over a transport whose publishes all complete, a replay publish
returns no error and performs exactly the expected call. -/
theorem publishDSN_replay_of_waitOk (c : MQTTClient) (D : DatabaseID) (p : BrokerPayload)
    (C : NodeID) (hok : ∀ call, (c.transport call).waitOk = true) :
    PublishDSN c MQTTReplay D p C =
      (none, [⟨c.PublishTopicPre ++ D ++ "/" ++ MQTTReplay ++ "/" ++ C, 1, true,
          marshalBrokerPayload p⟩]) := by
  simp [PublishDSN, MQTTReplay, MQTTNewest, hok]

/-- In a single-block replay (`blockIndex = bStart = bEnd`) over a
transport whose publishes all complete, the transaction loop publishes
exactly the transactions at positions at or after `iStart`, never
returns early, and ignores `iEnd`. -/
theorem replayTxsLoop_same_block (c : MQTTClient) (rc b iS iE : Int)
    (hok : ∀ call, (c.transport call).waitOk = true) :
    ∀ (txs : List QueryAsTx) (idx : Nat),
      replayTxsLoop c rc b b b iS iE idx txs =
        (((txs.enumFrom idx).filter (fun q => ! decide ((q.1 : Int) < iS))).map
            (fun q => replayCall c rc q.1 q.2),
          false) := by
  intro txs
  induction txs with
  | nil => intro idx; rfl
  | cons qat rest ih =>
    intro idx
    by_cases hlt : (idx : Int) < iS
    · simp [replayTxsLoop, hlt, List.enumFrom, ih (idx + 1)]
    · simp [replayTxsLoop, hlt, List.enumFrom, ih (idx + 1),
        publishDSN_replay_of_waitOk c _ _ _ hok, replayCall, mkTxPayload]

/-- C7: serializing any BrokerPayload and decoding the result with the
inbound payload decoder yields the original payload. -/
theorem brokerPayload_roundtrip (p : BrokerPayload) :
    unmarshalBrokerPayload (marshalBrokerPayload p) = some p := by
  obtain ⟨bid, bidx, cid, cseq, evs, bs, istart, be, iend⟩ := p
  simp [marshalBrokerPayload, unmarshalBrokerPayload, jsonLookup,
    jsonToInt, jsonToNat, jsonToStr, jsonToQueries, queries_roundtrip]
  rw [if_neg (by omega)]
  rfl

/-- C3: the topic decoder's result obeys the segment contract — one
segment is the client id alone; two segments give the client id and
either the create intent (literal "create") or a database id with no
intent; three segments give client id, database id, and the third
segment as intent when it is write/replay/create, Invalid otherwise;
zero or more than three segments leave every field empty/Invalid. -/
theorem decodeTopicAPI_contract (topic : String) :
    (∀ a, splitArgs topic = [a] → decodeTopicAPI topic = (a, "", MQTTInvalid))
    ∧ (∀ a b, splitArgs topic = [a, b] →
        decodeTopicAPI topic =
          if b = MQTTCreate then (a, "", MQTTCreate) else (a, b, MQTTInvalid))
    ∧ (∀ a b i, splitArgs topic = [a, b, i] →
        decodeTopicAPI topic =
          (a, b, if i = MQTTWrite ∨ i = MQTTReplay ∨ i = MQTTCreate then i
            else MQTTInvalid))
    ∧ (splitArgs topic = [] ∨ 3 < (splitArgs topic).length →
        decodeTopicAPI topic = ("", "", MQTTInvalid)) := by
  refine ⟨?_, ?_, ?_, ?_⟩
  · intro a h
    simp [decodeTopicAPI, h, MQTTInvalid, MQTTWrite, MQTTReplay, MQTTCreate]
  · intro a b h
    by_cases hb : b = MQTTCreate
    · simp [decodeTopicAPI, h, hb, MQTTInvalid, MQTTWrite, MQTTReplay, MQTTCreate]
    · have hb' : ¬ b = "create" := hb
      simp [decodeTopicAPI, h, hb, hb', MQTTInvalid, MQTTWrite, MQTTReplay, MQTTCreate]
  · intro a b i h
    by_cases h1 : i = MQTTWrite
    · simp [decodeTopicAPI, h, h1, MQTTInvalid, MQTTWrite, MQTTReplay, MQTTCreate]
    · by_cases h2 : i = MQTTReplay
      · simp [decodeTopicAPI, h, h1, h2, MQTTInvalid, MQTTWrite, MQTTReplay, MQTTCreate]
      · by_cases h3 : i = MQTTCreate
        · simp [decodeTopicAPI, h, h1, h2, h3, MQTTInvalid, MQTTWrite, MQTTReplay,
            MQTTCreate]
        · have h1' : ¬ i = "write" := h1
          have h2' : ¬ i = "replay" := h2
          have h3' : ¬ i = "create" := h3
          simp [decodeTopicAPI, h, h1', h2', h3', MQTTInvalid, MQTTWrite, MQTTReplay,
            MQTTCreate]
  · intro h
    rcases h with h | h
    · simp [decodeTopicAPI, h, MQTTInvalid]
    · simp [decodeTopicAPI, MQTTInvalid]
      intro hc
      omega

/-- Witness for the topic-decoder contract at a concrete three-segment
topic. -/
theorem decodeTopicAPI_contract_witness :
    splitArgs "/cql/client/c1/db1/replay" = ["c1", "db1", "replay"]
    ∧ decodeTopicAPI "/cql/client/c1/db1/replay" = ("c1", "db1", MQTTReplay) := by
  refine ⟨rfl, ?_⟩
  have h := (decodeTopicAPI_contract "/cql/client/c1/db1/replay").2.2.1 "c1" "db1" "replay" rfl
  simpa [MQTTWrite, MQTTReplay, MQTTCreate] using h

/-- C5: a newest publish targets exactly
`PublishTopicPrefix + databaseID + "/newest"`; a replay publish targets
the same with `"/" + requestClient` appended; any other api name makes
the publisher return an error without any transport publish call. -/
theorem publishDSN_topic_contract (c : MQTTClient) (N : String) (D : DatabaseID)
    (p : BrokerPayload) (C : NodeID) (api : MQTTAPI)
    (hpre : c.PublishTopicPre = publishPre ++ N ++ "/")
    (hapi1 : api ≠ MQTTNewest) (hapi2 : api ≠ MQTTReplay) :
    ((PublishDSN c MQTTNewest D p C).2.map PublishCall.topic =
        [publishPre ++ N ++ "/" ++ D ++ "/" ++ MQTTNewest])
    ∧ ((PublishDSN c MQTTReplay D p C).2.map PublishCall.topic =
        [publishPre ++ N ++ "/" ++ D ++ "/" ++ MQTTReplay ++ "/" ++ C])
    ∧ (PublishDSN c api D p C).1.isSome
    ∧ (PublishDSN c api D p C).2 = [] := by
  refine ⟨?_, ?_, ?_, ?_⟩
  · simp [PublishDSN, MQTTNewest, hpre]
  · simp [PublishDSN, MQTTNewest, MQTTReplay, hpre]
  · simp [PublishDSN, hapi1, hapi2]
  · simp [PublishDSN, hapi1, hapi2]

/-- Witness for the publisher topic contract at concrete inputs,
including the rejected api name "write". -/
theorem publishDSN_topic_contract_witness :
    okClient.PublishTopicPre = publishPre ++ "N" ++ "/"
    ∧ ("write" : MQTTAPI) ≠ MQTTNewest
    ∧ ("write" : MQTTAPI) ≠ MQTTReplay
    ∧ ((PublishDSN okClient MQTTNewest "db1" replayRangePayload "cli").2.map
          PublishCall.topic =
        [publishPre ++ "N" ++ "/" ++ "db1" ++ "/" ++ MQTTNewest])
    ∧ ((PublishDSN okClient MQTTReplay "db1" replayRangePayload "cli").2.map
          PublishCall.topic =
        [publishPre ++ "N" ++ "/" ++ "db1" ++ "/" ++ MQTTReplay ++ "/" ++ "cli"])
    ∧ (PublishDSN okClient "write" "db1" replayRangePayload "cli").1.isSome
    ∧ (PublishDSN okClient "write" "db1" replayRangePayload "cli").2 = [] := by
  have h := publishDSN_topic_contract okClient "N" "db1" replayRangePayload "cli" "write"
    rfl (by simp [MQTTNewest]) (by simp [MQTTReplay])
  exact ⟨rfl, by simp [MQTTNewest], by simp [MQTTReplay], h.1, h.2.1, h.2.2.1, h.2.2.2⟩

/-- C1 (evaluation at the specified failing input): on the synthetic
two-block chain with transaction indices [0,1,2] and [0,1], the replay
request (blockStart 0, indexStart 1) to (blockEnd 1, indexEnd 0) makes
the handler publish exactly two payloads, both built from the most
recent block (realCount 1): (block 1, index 1) then (block 1, index 0)
— not the three transactions (0,1), (0,2), (1,0) the specification
names, because `FetchBlockByCount(-1)` is called on every iteration of
the block range. -/
theorem replay_range_code_eval :
    processReplayEvent okClient replayRangeEvent =
      [replayCall okClient 1 1 (tx "cli" 21 "db1" "b1"),
        replayCall okClient 1 0 (tx "cli" 20 "db1" "b0")]
    ∧ (processReplayEvent okClient replayRangeEvent).length = 2 := ⟨rfl, rfl⟩

/-- C2 (evaluation at the failing input): a publish whose token
completes with an acknowledgement failure — `Wait()` true and a
non-nil `Error()`, the failure shape `NewMQTTClient`'s own connect
check tests for — makes `PublishDSN` return nil, because the code only
returns `token.Error()` when `token.Wait()` is false. -/
theorem publishDSN_ack_failure_eval :
    (ackFailClient.transport
        ⟨publishPre ++ "N" ++ "/" ++ "db1" ++ "/" ++ MQTTNewest, 1, true,
          marshalBrokerPayload replayRangePayload⟩).waitOk = true
    ∧ (ackFailClient.transport
        ⟨publishPre ++ "N" ++ "/" ++ "db1" ++ "/" ++ MQTTNewest, 1, true,
          marshalBrokerPayload replayRangePayload⟩).tokenErr = some "ack failed"
    ∧ (PublishDSN ackFailClient MQTTNewest "db1" replayRangePayload "cli").1 = none :=
  ⟨rfl, rfl, rfl⟩

/-- C8: an inbound message whose topic decodes to the Invalid intent,
or whose payload fails to decode, produces no SubscribeEvent — the
callback pushes nothing and returns normally. -/
theorem subscribeCallback_drops_malformed (topic : String) (msg : Json) :
    ((decodeTopicAPI topic).2.2 = MQTTInvalid → subscribeCallback topic msg = none)
    ∧ (unmarshalBrokerPayload msg = none → subscribeCallback topic msg = none) := by
  constructor
  · intro h
    simp [subscribeCallback, h, MQTTInvalid]
  · intro h
    by_cases hr : (decodeTopicAPI topic).2.2 = "" <;> simp [subscribeCallback, hr, h]

/-- Witness for the malformed-message contract: an oversized topic and
a non-object payload are both dropped. -/
theorem subscribeCallback_drops_malformed_witness :
    (decodeTopicAPI "/cql/client/a/b/c/d").2.2 = MQTTInvalid
    ∧ unmarshalBrokerPayload (Json.num 0) = none
    ∧ subscribeCallback "/cql/client/a/b/c/d" (Json.num 0) = none
    ∧ subscribeCallback "/cql/client/x/y/write" (Json.num 0) = none :=
  ⟨rfl, rfl, (subscribeCallback_drops_malformed "/cql/client/a/b/c/d" (Json.num 0)).1 rfl,
    (subscribeCallback_drops_malformed "/cql/client/x/y/write" (Json.num 0)).2 rfl⟩

/-- C9: the consumer loop routes each dequeued event exactly by
intent: Write to the write handler, Replay to the replay handler,
Create to the stub handler — which performs no chain call, no publish
and no state change — and any other intent is dropped with no effect. -/
theorem dispatch_routing_contract (c : MQTTClient) (now : Int) (e : SubscribeEvent) :
    (e.ApiName = MQTTWrite → dispatchEvent c now e = (processWriteEvent c now e, []))
    ∧ (e.ApiName = MQTTReplay → dispatchEvent c now e = ([], processReplayEvent c e))
    ∧ (e.ApiName = MQTTCreate →
        dispatchEvent c now e = processCreateEvent c e ∧ processCreateEvent c e = ([], []))
    ∧ (e.ApiName ≠ MQTTWrite → e.ApiName ≠ MQTTReplay → e.ApiName ≠ MQTTCreate →
        dispatchEvent c now e = ([], [])) := by
  refine ⟨?_, ?_, ?_, ?_⟩
  · intro h
    simp [dispatchEvent, h, MQTTWrite]
  · intro h
    have hne : ¬ (MQTTReplay = MQTTWrite) := by simp [MQTTReplay, MQTTWrite]
    simp [dispatchEvent, h, hne]
  · intro h
    have hne1 : ¬ (MQTTCreate = MQTTWrite) := by simp [MQTTCreate, MQTTWrite]
    have hne2 : ¬ (MQTTCreate = MQTTReplay) := by simp [MQTTCreate, MQTTReplay]
    exact ⟨by simp [dispatchEvent, h, hne1, hne2], rfl⟩
  · intro h1 h2 h3
    simp [dispatchEvent, h1, h2, h3]

/-- Witness for the dispatch routing contract at the four concrete
intents write, replay, create and "bogus". -/
theorem dispatch_routing_contract_witness :
    (writeEvent.ApiName = MQTTWrite
      ∧ dispatchEvent okClient 0 writeEvent = (processWriteEvent okClient 0 writeEvent, []))
    ∧ (replayRangeEvent.ApiName = MQTTReplay
      ∧ dispatchEvent okClient 0 replayRangeEvent =
          ([], processReplayEvent okClient replayRangeEvent))
    ∧ dispatchEvent okClient 0 ⟨"cli", "db1", MQTTCreate, replayRangePayload⟩ = ([], [])
    ∧ dispatchEvent okClient 0 ⟨"cli", "db1", "bogus", replayRangePayload⟩ = ([], []) := by
  refine ⟨⟨rfl, (dispatch_routing_contract okClient 0 writeEvent).1 rfl⟩,
    ⟨rfl, (dispatch_routing_contract okClient 0 replayRangeEvent).2.1 rfl⟩,
    ?_, ?_⟩
  · have h := (dispatch_routing_contract okClient 0
      ⟨"cli", "db1", MQTTCreate, replayRangePayload⟩).2.2.1 rfl
    rw [h.1, h.2]
  · exact (dispatch_routing_contract okClient 0
      ⟨"cli", "db1", "bogus", replayRangePayload⟩).2.2.2
      (by simp [MQTTWrite]) (by simp [MQTTReplay]) (by simp [MQTTCreate])

/-- C6: a write event for a registered database submits exactly one
chain-append request with query kind write, requesting node = event
client, target database = event database, connection id 0, sequence
number = event client sequence, timestamp = current local time, and
payload = the event statements; a query-executor failure does not stop
the loop from processing subsequent queued events. -/
theorem processWriteEvent_request_contract (c : MQTTClient) (now : Int)
    (event : SubscribeEvent) (db : Database) (e : String) (rest : List SubscribeEvent)
    (hreg : c.dbms.getMeta event.DatabaseID = some db)
    (hwrite : event.ApiName = MQTTWrite)
    (_hfail : db.QueryExec (writeReq now event) = some e) :
    processWriteEvent c now event = [writeReq now event]
    ∧ subscribeEventLoop c now (event :: rest) =
        (writeReq now event :: (subscribeEventLoop c now rest).1,
          (subscribeEventLoop c now rest).2) := by
  have h1 : processWriteEvent c now event = [writeReq now event] := by
    simp only [processWriteEvent, hreg]
    split <;> rfl
  refine ⟨h1, ?_⟩
  have h2 : dispatchEvent c now event = (processWriteEvent c now event, []) := by
    simp [dispatchEvent, hwrite, MQTTWrite]
  simp [subscribeEventLoop, h2, h1]

/-- Witness for the write-handler contract: a failing query executor
and a second queued event that is still processed. -/
theorem processWriteEvent_request_contract_witness :
    execFailClient.dbms.getMeta writeEvent.DatabaseID =
      some ⟨"db1", twoBlockChain, fun _ => some "execfail"⟩
    ∧ writeEvent.ApiName = MQTTWrite
    ∧ (⟨"db1", twoBlockChain, fun _ => some "execfail"⟩ : Database).QueryExec
        (writeReq 0 writeEvent) = some "execfail"
    ∧ processWriteEvent execFailClient 0 writeEvent = [writeReq 0 writeEvent]
    ∧ subscribeEventLoop execFailClient 0 [writeEvent, writeEvent] =
        (writeReq 0 writeEvent :: (subscribeEventLoop execFailClient 0 [writeEvent]).1,
          (subscribeEventLoop execFailClient 0 [writeEvent]).2) := by
  have h := processWriteEvent_request_contract execFailClient 0 writeEvent
    ⟨"db1", twoBlockChain, fun _ => some "execfail"⟩ "execfail" [writeEvent] rfl rfl rfl
  exact ⟨rfl, rfl, rfl, h.1, h.2⟩

/-- C10: when blockStart equals blockEnd, the indexEnd bound is never
applied — the handler skips transactions below indexStart and then
publishes every remaining transaction of the fetched block, including
those with index above indexEnd, since the end-of-range check sits in
an else-branch reached only when the iterated block position differs
from blockStart. -/
theorem replay_single_block_ignores_indexEnd (c : MQTTClient) (event : SubscribeEvent)
    (db : Database) (block : Block) (rc : Int) (hm : Bool)
    (hdb : c.dbms.load event.DatabaseID = some db)
    (hfetch : db.chain.FetchBlockByCount (-1) = .ok (block, rc, hm))
    (hsame : event.Payload.BlockStart = event.Payload.BlockEnd)
    (hok : ∀ call, (c.transport call).waitOk = true) :
    processReplayEvent c event =
      ((block.QueryTxs.enumFrom 0).filter
          (fun q => ! decide ((q.1 : Int) < event.Payload.IndexStart))).map
        (fun q => replayCall c rc q.1 q.2) := by
  simp only [processReplayEvent, hdb]
  rw [← hsame]
  have h1 : (event.Payload.BlockStart - event.Payload.BlockStart + 1).toNat = 1 := by
    simp
  rw [h1]
  simp only [replayBlocksLoop, hfetch]
  rw [replayTxsLoop_same_block c rc event.Payload.BlockStart event.Payload.IndexStart
    event.Payload.IndexEnd hok block.QueryTxs 0]
  simp [replayBlocksLoop]

/-- Witness for the single-block replay theorem: a replay over block 1
with indexStart 1 and indexEnd 0 still publishes the transaction at
index 1, which exceeds indexEnd. -/
theorem replay_single_block_ignores_indexEnd_witness :
    okClient.dbms.load singleBlockReplayEvent.DatabaseID = some db1
    ∧ db1.chain.FetchBlockByCount (-1) = .ok (block1, 1, false)
    ∧ singleBlockReplayEvent.Payload.BlockStart = singleBlockReplayEvent.Payload.BlockEnd
    ∧ processReplayEvent okClient singleBlockReplayEvent =
        ((block1.QueryTxs.enumFrom 0).filter
            (fun q => ! decide ((q.1 : Int) < singleBlockReplayEvent.Payload.IndexStart))).map
          (fun q => replayCall okClient 1 q.1 q.2) :=
  ⟨rfl, rfl, rfl,
    replay_single_block_ignores_indexEnd okClient singleBlockReplayEvent db1 block1 1 false
      rfl rfl rfl (fun _ => rfl)⟩

/-- The final value of the per-tick error variable after publishing a
block is the error of the last transaction's publish, regardless of
the incoming accumulator and of earlier failures. -/
theorem newestTxsLoop_last_err (c : MQTTClient) (rc : Int) (qlast : QueryAsTx) :
    ∀ (front : List QueryAsTx) (idx : Nat) (errAcc : Option String),
      (newestTxsLoop c rc idx errAcc (front ++ [qlast])).2 =
        newestPublishErr c rc (idx + front.length) qlast := by
  intro front
  induction front with
  | nil => intro idx errAcc; simp [newestTxsLoop, newestPublishErr]
  | cons f fs ih =>
    intro idx errAcc
    simp only [List.cons_append, newestTxsLoop, List.append_eq, List.length_cons]
    rw [ih (idx + 1)]
    have harith : idx + 1 + fs.length = idx + (fs.length + 1) := by omega
    rw [harith]

/-- C4 (counterexample to the claim as stated): on a registry
[dbA, dbB] where the publish for the first transaction of dbA's block
fails but the publish for its last transaction succeeds, the tick
still visits dbB — a failing publish does not halt the registry
iteration unless it is the block's last. -/
theorem updateBlockTick_midblock_failure_cex :
    newestPublishErr failFirstClient 5 0 txA0 = some "boom"
    ∧ (updateBlockTick failFirstClient).map PublishCall.topic =
        ["/cql/miner/N/X0/newest", "/cql/miner/N/X1/newest", "/cql/miner/N/Y/newest"] :=
  ⟨rfl, rfl⟩

/-- C4 (amended): registry iteration for a tick continues past a
database iff the publish of the final transaction of its fetched block
reports no error; failures on earlier transactions are overwritten and
do not halt the iteration, though every transaction of the block is
still attempted. -/
theorem updateBlockTick_halts_iff_last_publish_fails (c : MQTTClient) (db : Database)
    (rest : List Database) (block : Block) (rc : Int) (hm : Bool)
    (front : List QueryAsTx) (qlast : QueryAsTx)
    (hfetch : db.chain.FetchBlockByCount (-1) = .ok (block, rc, hm))
    (htxs : block.QueryTxs = front ++ [qlast]) :
    rangeDBs c (db :: rest) =
      (updateBlockDB c db).1 ++
        (if (newestPublishErr c rc front.length qlast).isNone then rangeDBs c rest
          else []) := by
  have hkey := newestTxsLoop_last_err c rc qlast front 0 none
  simp only [Nat.zero_add] at hkey
  by_cases hc : (newestPublishErr c rc front.length qlast).isNone
  · simp only [rangeDBs, updateBlockDB, hfetch, htxs, hkey, hc]
    simp
  · simp only [rangeDBs, updateBlockDB, hfetch, htxs, hkey]
    simp [hc]

/-- Witness for the amended periodic-publisher theorem on the concrete
registry [dbA, dbB]. -/
theorem updateBlockTick_halts_iff_last_publish_fails_witness :
    dbA.chain.FetchBlockByCount (-1) = .ok (⟨[txA0, txA1]⟩, 5, false)
    ∧ (⟨[txA0, txA1]⟩ : Block).QueryTxs = [txA0] ++ [txA1]
    ∧ rangeDBs failFirstClient [dbA, dbB] =
        (updateBlockDB failFirstClient dbA).1 ++
          (if (newestPublishErr failFirstClient 5 [txA0].length txA1).isNone
            then rangeDBs failFirstClient [dbB] else []) :=
  ⟨rfl, rfl, updateBlockTick_halts_iff_last_publish_fails failFirstClient dbA [dbB]
    ⟨[txA0, txA1]⟩ 5 false [txA0] txA1 rfl rfl⟩
end Broker
